import Mathlib

/-!
Shallow embedding of the per-call bridging session implemented in
`src/index.js` (Twilio media-stream ↔ OpenAI realtime bridge), together
with the session-registry lifecycle.  Per-connection mutable state
(`streamSid`, `latestMediaTimestamp`, `lastAssistantItem`, `markQueue`,
`responseStartTimestampTwilio`) becomes an explicit `SessionState`; the
two socket message handlers become pure functions returning the new state
plus the commands written to each link.  JavaScript truthiness tests on
these variables are made explicit (`jsTruthyStrOpt`, `jsFalsyNatOpt`).
Media timestamps are the telephony platform's millisecond counters,
modelled as `Nat` (they start at 0); the truncation arithmetic
`latestMediaTimestamp - responseStartTimestampTwilio` is carried out in
`Int`, exactly as JavaScript subtraction would.
-/

namespace Bridge

/-- JavaScript truthiness of a nullable string variable: `null` and the
empty string are falsy (used by `if (streamSid)` in `sendMark` and
`if (lastAssistantItem)` in `handleSpeechStartedEvent`). -/
def jsTruthyStrOpt : Option String → Bool
  | none => false
  | some s => s ≠ ""

/-- JavaScript falsiness of a nullable numeric variable: `null` and `0`
are falsy (used by `if (!responseStartTimestampTwilio)` on line 298 of
`src/index.js`). -/
def jsFalsyNatOpt : Option Nat → Bool
  | none => true
  | some n => n = 0

/-- Models `Buffer.from(delta, "base64").toString("base64")` on line 293
of `src/index.js`.  On the canonical base64 payloads produced by the AI
service this decode/re-encode round trip is the identity; no claim
inspects payload bytes, so it is embedded as the identity function. -/
def b64Reencode (s : String) : String := s

/-- Commands written to the AI (OpenAI realtime) link. -/
inductive AiCmd where
  /-- `{type:"input_audio_buffer.append", audio}` (lines 338-342). -/
  | audioAppend (audio : String)
  /-- `{type:"conversation.item.truncate", item_id, content_index, audio_end_ms}`
  (lines 227-238). -/
  | truncate (itemId : String) (contentIndex : Nat) (audioEndMs : Int)
  deriving DecidableEq, Repr

/-- Frames written to the telephony (Twilio) link. -/
inductive TwCmd where
  /-- `{event:"media", streamSid, media:{payload}}` (lines 289-296);
  `streamSid` is the session variable, possibly still null. -/
  | mediaOut (sid : Option String) (payload : String)
  /-- `{event:"mark", streamSid, mark:{name}}` (lines 256-261); only sent
  when `streamSid` is truthy. -/
  | markOut (sid : String) (name : String)
  /-- `{event:"clear", streamSid}` (lines 241-246). -/
  | clearOut (sid : Option String)
  deriving DecidableEq, Repr

/-- Whether a telephony command is a mark frame. -/
def TwCmd.isMark : TwCmd → Bool
  | .markOut _ _ => true
  | _ => false

/-- Per-connection mutable state of `src/index.js` lines 181-185. -/
structure SessionState where
  streamSid : Option String
  latestMediaTimestamp : Nat
  lastAssistantItem : Option String
  markQueue : List String
  responseStartTimestampTwilio : Option Nat
  deriving DecidableEq, Repr

/-- Initial per-connection state (lines 181-185): `streamSid = null`,
`latestMediaTimestamp = 0`, `lastAssistantItem = null`, `markQueue = []`,
`responseStartTimestampTwilio = null`. -/
def initState : SessionState :=
  { streamSid := none
    latestMediaTimestamp := 0
    lastAssistantItem := none
    markQueue := []
    responseStartTimestampTwilio := none }

/-- Result of one handler invocation: the new session state, the commands
sent to the AI link, the frames sent to the telephony link, and the
messages reported to the logging collaborator (routine debug logging
such as `SHOW_TIMING_MATH` and the `LOG_EVENT_TYPES` dumps is not
modelled; `logs` records only the error/ignored-frame reporting paths
the spec mentions). -/
structure StepOut where
  state : SessionState
  toAi : List AiCmd
  toTw : List TwCmd
  logs : List String
  deriving Repr

/-- Handler result that changes nothing and emits nothing. -/
def noopStep (s : SessionState) : StepOut := ⟨s, [], [], []⟩

/-- Decoded inbound AI-link event, as consumed by the `openAiWs` message
handler (lines 271-324).  `audioDelta` carries the affected-item id
returned by the Conversation Tracker alongside the base64 delta
(`response.delta`, null/empty when absent).  `malformed` is a message on
which `JSON.parse` throws. -/
inductive AiEvent where
  | audioDelta (item : Option String) (delta : Option String)
  | speechStarted
  | otherEvent
  | malformed
  deriving DecidableEq, Repr

/-- Modelled from the spec: `conversation.js` (the `RealtimeConversation`
class imported on line 8 of `src/index.js`) is not part of the provided
sources.  Spec §4.4 gives its contract
`processEvent(event) -> {affectedItem, audioDelta}` and §4.1 states that
for an audio-output-delta the tracker returns the affected item whose id
the bridge copies into `lastAssistantItemId`.  The decoded `audioDelta`
event therefore carries the affected-item id the tracker returns
(`none` when it returns no item); `processEvent` projects it, mirroring
`const { item, delta } = conversation.processEvent(response)` on
line 286. -/
def processEvent : AiEvent → Option String
  | .audioDelta item _ => item
  | _ => none

/-- Embeds `handleSpeechStartedEvent` (lines 218-252): if
`markQueue.length > 0 && responseStartTimestampTwilio != null` (the JS
loose `!= null` admits `0`), compute
`elapsedTime = latestMediaTimestamp - responseStartTimestampTwilio`;
if `lastAssistantItem` is truthy send a `conversation.item.truncate`
with `content_index` 0 and `audio_end_ms = elapsedTime`; send a `clear`
frame carrying the session's `streamSid`; reset `markQueue`,
`lastAssistantItem`, `responseStartTimestampTwilio`.  Otherwise do
nothing. -/
def handleSpeechStartedEvent (s : SessionState) : StepOut :=
  if 0 < s.markQueue.length then
    match s.responseStartTimestampTwilio with
    | some rst =>
      let elapsedTime : Int := (s.latestMediaTimestamp : Int) - (rst : Int)
      let truncs : List AiCmd :=
        match s.lastAssistantItem with
        | some itemId =>
          if itemId = "" then [] else [AiCmd.truncate itemId 0 elapsedTime]
        | none => []
      { state :=
          { s with markQueue := []
                   lastAssistantItem := none
                   responseStartTimestampTwilio := none }
        toAi := truncs
        toTw := [TwCmd.clearOut s.streamSid]
        logs := [] }
    | none => noopStep s
  else noopStep s

/-- Embeds `sendMark` (lines 254-264): only when `streamSid` is truthy,
send `{event:"mark", streamSid, mark:{name:"responsePart"}}` and push
`"responsePart"` onto `markQueue`. -/
def sendMark (s : SessionState) : SessionState × List TwCmd :=
  match s.streamSid with
  | some sid =>
    if sid = "" then (s, [])
    else ({ s with markQueue := s.markQueue ++ ["responsePart"] },
          [TwCmd.markOut sid "responsePart"])
  | none => (s, [])

/-- Session state after the `response.audio.delta` branch's two state
updates (lines 298-308): `responseStartTimestampTwilio` is set to
`latestMediaTimestamp` when falsy (line 298:
`if (!responseStartTimestampTwilio)`), then `lastAssistantItem` is set
to the tracker item's id when the tracker returned one. -/
def deltaState (s : SessionState) (item : Option String) : SessionState :=
  let s1 :=
    if jsFalsyNatOpt s.responseStartTimestampTwilio then
      { s with responseStartTimestampTwilio := some s.latestMediaTimestamp }
    else s
  match item with
  | some itemId => { s1 with lastAssistantItem := some itemId }
  | none => s1

/-- Embeds the `openAiWs` message handler (lines 271-324).  A malformed
message makes `JSON.parse` throw; the catch block is empty (the
`console.error` is commented out), so the event is dropped silently.
Otherwise the event is given to the Conversation Tracker; on
`response.audio.delta` with a truthy `delta` the payload is re-framed as
a telephony media frame tagged with the current `streamSid`, the two
`deltaState` updates run, then `sendMark` runs; on
`input_audio_buffer.speech_started` the interruption handler runs. -/
def onAiEvent (s : SessionState) (e : AiEvent) : StepOut :=
  match e with
  | .malformed => noopStep s
  | .audioDelta item delta =>
    match delta with
    | some d =>
      if d = "" then noopStep s
      else
        let sm := sendMark (deltaState s item)
        ⟨sm.1, [], TwCmd.mediaOut s.streamSid (b64Reencode d) :: sm.2, []⟩
    | none => noopStep s
  | .speechStarted => handleSpeechStartedEvent s
  | .otherEvent => noopStep s

/-- Decoded inbound telephony frame, as consumed by the `connection`
message handler (lines 326-365).  `malformed` is a message on which
`JSON.parse` throws. -/
inductive TwFrame where
  | media (timestamp : Nat) (payload : String)
  | start (streamSid : String)
  | mark
  | other (event : String)
  | malformed
  deriving DecidableEq, Repr

/-- Embeds the `connection` message handler (lines 326-365).  `media`
updates `latestMediaTimestamp` from the frame and, when the AI socket is
open, forwards the payload unmodified as `input_audio_buffer.append`;
`start` records `streamSid` (registering the conversation in the
registry, modelled separately by `regOnStart`), nulls
`responseStartTimestampTwilio` and zeroes `latestMediaTimestamp`;
`mark` pops the front of `markQueue` when non-empty; any other event is
only logged; a parse failure is logged via `console.error` and
dropped. -/
def onTelephonyFrame (aiOpen : Bool) (s : SessionState) (f : TwFrame) : StepOut :=
  match f with
  | .media ts payload =>
    let s1 := { s with latestMediaTimestamp := ts }
    if aiOpen then ⟨s1, [AiCmd.audioAppend payload], [], []⟩
    else ⟨s1, [], [], []⟩
  | .start sid =>
    ⟨{ s with streamSid := some sid
              responseStartTimestampTwilio := none
              latestMediaTimestamp := 0 }, [], [], []⟩
  | .mark =>
    if 0 < s.markQueue.length then ⟨{ s with markQueue := s.markQueue.tail }, [], [], []⟩
    else noopStep s
  | .other ev => ⟨s, [], [], ["Received non-media event: " ++ ev]⟩
  | .malformed => ⟨s, [], [], ["Error parsing message"]⟩

/-- One inbound message for the session, from either link. -/
inductive SessionInput where
  | tw (f : TwFrame)
  | ai (e : AiEvent)
  deriving DecidableEq, Repr

/-- Dispatch one inbound message to its link's handler. -/
def stepInput (aiOpen : Bool) (s : SessionState) : SessionInput → StepOut
  | .tw f => onTelephonyFrame aiOpen s f
  | .ai e => onAiEvent s e

/-- Accumulated result of running a whole inbound trace. -/
structure RunOut where
  state : SessionState
  toAi : List AiCmd
  toTw : List TwCmd
  deriving Repr

/-- Run the session handlers over a trace of inbound messages, in arrival
order, collecting the commands written to each link. -/
def runSession (aiOpen : Bool) : SessionState → List SessionInput → RunOut
  | s, [] => ⟨s, [], []⟩
  | s, i :: rest =>
    let o := stepInput aiOpen s i
    let r := runSession aiOpen o.state rest
    ⟨r.state, o.toAi ++ r.toAi, o.toTw ++ r.toTw⟩

/-- Timestamps of the inbound telephony media frames of a trace, in
arrival order. -/
def mediaTimestamps : List SessionInput → List Nat
  | [] => []
  | .tw (.media ts _) :: rest => ts :: mediaTimestamps rest
  | _ :: rest => mediaTimestamps rest

/-- Link-shutdown actions a close handler can perform. -/
inductive CloseAction where
  | closeAiLink
  | closeTelephonyLink
  deriving DecidableEq, Repr

/-- Embeds the `connection` close handler (lines 367-377): closes the AI
socket when it is still open, schedules the delayed registry eviction
(modelled by `regOnClose`), and logs. -/
def onTelephonyClose (aiOpen : Bool) : List CloseAction × List String :=
  (if aiOpen then [CloseAction.closeAiLink] else [], ["Client disconnected."])

/-- Embeds the `openAiWs` close handler (lines 379-381): it only logs;
no action is taken on the telephony link. -/
def onAiClose (_telephonyOpen : Bool) : List CloseAction × List String :=
  ([], ["Disconnected from the OpenAI Realtime API"])

/-- Eviction delay of `setTimeout` on lines 371-375: 300000 ms. -/
def evictionDelayMs : Nat := 300000

/-- Registry-relevant lifecycle state of one session: whether
`activeConversations` holds its entry, the session's `streamSid`
variable, and the pending eviction timer's fire time (absolute ms). -/
structure RegState where
  hasEntry : Bool
  streamSid : Option String
  evictAt : Option Nat
  deriving DecidableEq, Repr

/-- Registry state before the session's start frame. -/
def regInit : RegState := ⟨false, none, none⟩

/-- Embeds the `start` case (lines 345-351):
`activeConversations.set(streamSid, conversation)`. -/
def regOnStart (sid : String) (r : RegState) : RegState :=
  { r with hasEntry := true, streamSid := some sid }

/-- Embeds the close handler's `setTimeout(..., 300000)` (lines 371-375):
schedules the eviction callback for `now + evictionDelayMs`. -/
def regOnClose (now : Nat) (r : RegState) : RegState :=
  { r with evictAt := some (now + evictionDelayMs) }

/-- Registry state as observed at absolute time `t`, after any due timer
has fired.  The eviction callback is
`if (streamSid) activeConversations.delete(streamSid)`, so it deletes
the entry only when the session's `streamSid` is truthy. -/
def regAtTime (t : Nat) (r : RegState) : RegState :=
  match r.evictAt with
  | some fireAt =>
    if fireAt ≤ t ∧ jsTruthyStrOpt r.streamSid then { r with hasEntry := false }
    else r
  | none => r

/-- Whether a lookup of the session's callId in `activeConversations`
succeeds at absolute time `t`. -/
def lookupAt (t : Nat) (r : RegState) : Bool := (regAtTime t r).hasEntry

/-- Inbound trace of the spec's first truncation scenario: stream start,
media at timestamp 1000, AI audio-delta for item "I1", media at
timestamp 1800, then AI speech-started. -/
def c1Trace : List SessionInput :=
  [ .tw (.start "CA1"), .tw (.media 1000 "p"),
    .ai (.audioDelta (some "I1") (some "d")),
    .tw (.media 1800 "q"), .ai .speechStarted ]

/-- Inbound trace of the spec's second scenario: `start{streamSid:"CA1"}`,
`media{timestamp:0,payload:"a"}`, AI audio-delta for item "I1", then AI
speech-started, with no response in flight before the delta. -/
def c6Trace : List SessionInput :=
  [ .tw (.start "CA1"), .tw (.media 0 "a"),
    .ai (.audioDelta (some "I1") (some "a")), .ai .speechStarted ]

/-- Inbound trace whose single AI audio-delta records a response start of
0 (the initial `latestMediaTimestamp`). -/
def c4TraceA : List SessionInput := [ .ai (.audioDelta (some "I1") (some "d")) ]

/-- Extension of `c4TraceA` by a media frame and a second audio-delta of
the same response (no interruption and no stream restart occur in
between). -/
def c4TraceB : List SessionInput :=
  c4TraceA ++ [ .tw (.media 500 "p"), .ai (.audioDelta (some "I1") (some "d")) ]

/-! Helper lemmas about single handler invocations and runs. -/

lemma runSession_nil (aiOpen : Bool) (s : SessionState) :
    runSession aiOpen s [] = ⟨s, [], []⟩ := rfl

lemma runSession_cons (aiOpen : Bool) (s : SessionState) (i : SessionInput)
    (rest : List SessionInput) :
    runSession aiOpen s (i :: rest)
      = ⟨(runSession aiOpen (stepInput aiOpen s i).state rest).state,
         (stepInput aiOpen s i).toAi
           ++ (runSession aiOpen (stepInput aiOpen s i).state rest).toAi,
         (stepInput aiOpen s i).toTw
           ++ (runSession aiOpen (stepInput aiOpen s i).state rest).toTw⟩ := rfl

lemma handleSpeechStartedEvent_lmt (s : SessionState) :
    (handleSpeechStartedEvent s).state.latestMediaTimestamp
      = s.latestMediaTimestamp := by
  unfold handleSpeechStartedEvent noopStep
  repeat' split <;> simp

lemma handleSpeechStartedEvent_rst (s : SessionState) :
    (handleSpeechStartedEvent s).state.responseStartTimestampTwilio = none
    ∨ (handleSpeechStartedEvent s).state = s := by
  unfold handleSpeechStartedEvent noopStep
  repeat' split <;> simp

lemma handleSpeechStartedEvent_toAi_mem (s : SessionState) :
    ∀ itemId ci ms, AiCmd.truncate itemId ci ms ∈ (handleSpeechStartedEvent s).toAi →
    ∃ r, s.responseStartTimestampTwilio = some r
      ∧ ms = (s.latestMediaTimestamp : Int) - (r : Int) := by
  intro itemId ci ms hm
  unfold handleSpeechStartedEvent noopStep at hm
  split at hm
  · split at hm
    · next r hr =>
      refine ⟨r, hr, ?_⟩
      simp only at hm
      split at hm
      · next itm hitm =>
        split at hm
        · simp at hm
        · simp at hm
          exact hm.2.2
      · simp at hm
    · simp at hm
  · simp at hm

lemma sendMark_lmt (s : SessionState) :
    (sendMark s).1.latestMediaTimestamp = s.latestMediaTimestamp := by
  cases h : s.streamSid with
  | none => simp [sendMark, h]
  | some sid => by_cases hs : sid = "" <;> simp [sendMark, h, hs]

lemma sendMark_rst (s : SessionState) :
    (sendMark s).1.responseStartTimestampTwilio
      = s.responseStartTimestampTwilio := by
  cases h : s.streamSid with
  | none => simp [sendMark, h]
  | some sid => by_cases hs : sid = "" <;> simp [sendMark, h, hs]

lemma sendMark_sid (s : SessionState) :
    (sendMark s).1.streamSid = s.streamSid := by
  cases h : s.streamSid with
  | none => simp [sendMark, h]
  | some sid => by_cases hs : sid = "" <;> simp [sendMark, h, hs]

lemma sendMark_lai (s : SessionState) :
    (sendMark s).1.lastAssistantItem = s.lastAssistantItem := by
  cases h : s.streamSid with
  | none => simp [sendMark, h]
  | some sid => by_cases hs : sid = "" <;> simp [sendMark, h, hs]

lemma deltaState_lmt (s : SessionState) (item : Option String) :
    (deltaState s item).latestMediaTimestamp = s.latestMediaTimestamp := by
  cases item <;>
    by_cases hf : jsFalsyNatOpt s.responseStartTimestampTwilio = true <;>
    simp [deltaState, hf]

lemma deltaState_sid (s : SessionState) (item : Option String) :
    (deltaState s item).streamSid = s.streamSid := by
  cases item <;>
    by_cases hf : jsFalsyNatOpt s.responseStartTimestampTwilio = true <;>
    simp [deltaState, hf]

lemma deltaState_mq (s : SessionState) (item : Option String) :
    (deltaState s item).markQueue = s.markQueue := by
  cases item <;>
    by_cases hf : jsFalsyNatOpt s.responseStartTimestampTwilio = true <;>
    simp [deltaState, hf]

lemma deltaState_rst (s : SessionState) (item : Option String) :
    (deltaState s item).responseStartTimestampTwilio
      = if jsFalsyNatOpt s.responseStartTimestampTwilio
        then some s.latestMediaTimestamp
        else s.responseStartTimestampTwilio := by
  cases item <;>
    by_cases hf : jsFalsyNatOpt s.responseStartTimestampTwilio = true <;>
    simp [deltaState, hf]

lemma onAiEvent_delta (s : SessionState) (item : Option String) (d : String)
    (hd : d ≠ "") :
    onAiEvent s (.audioDelta item (some d))
      = ⟨(sendMark (deltaState s item)).1, [],
         TwCmd.mediaOut s.streamSid (b64Reencode d)
           :: (sendMark (deltaState s item)).2, []⟩ := by
  simp [onAiEvent, hd]

lemma onAiEvent_lmt (s : SessionState) (e : AiEvent) :
    (onAiEvent s e).state.latestMediaTimestamp = s.latestMediaTimestamp := by
  cases e with
  | audioDelta item delta =>
    cases delta with
    | none => simp [onAiEvent, noopStep]
    | some d =>
      by_cases hd : d = ""
      · simp [onAiEvent, hd, noopStep]
      · rw [onAiEvent_delta s item d hd]
        simp [sendMark_lmt, deltaState_lmt]
  | speechStarted => exact handleSpeechStartedEvent_lmt s
  | otherEvent => simp [onAiEvent, noopStep]
  | malformed => simp [onAiEvent, noopStep]

lemma onAiEvent_rst (s : SessionState) (e : AiEvent) :
    (onAiEvent s e).state.responseStartTimestampTwilio = none
    ∨ (onAiEvent s e).state.responseStartTimestampTwilio
        = s.responseStartTimestampTwilio
    ∨ (onAiEvent s e).state.responseStartTimestampTwilio
        = some s.latestMediaTimestamp := by
  cases e with
  | audioDelta item delta =>
    cases delta with
    | none => simp [onAiEvent, noopStep]
    | some d =>
      by_cases hd : d = ""
      · simp [onAiEvent, hd, noopStep]
      · rw [onAiEvent_delta s item d hd]
        simp only [sendMark_rst, deltaState_rst]
        split
        · exact Or.inr (Or.inr rfl)
        · exact Or.inr (Or.inl rfl)
  | speechStarted =>
    have he : onAiEvent s .speechStarted = handleSpeechStartedEvent s := rfl
    rw [he]
    rcases handleSpeechStartedEvent_rst s with h | h
    · exact Or.inl h
    · exact Or.inr (Or.inl (by rw [h]))
  | otherEvent => simp [onAiEvent, noopStep]
  | malformed => simp [onAiEvent, noopStep]

lemma onAiEvent_toAi_mem (s : SessionState) (e : AiEvent) :
    ∀ itemId ci ms, AiCmd.truncate itemId ci ms ∈ (onAiEvent s e).toAi →
    ∃ r, s.responseStartTimestampTwilio = some r
      ∧ ms = (s.latestMediaTimestamp : Int) - (r : Int) := by
  intro itemId ci ms hm
  cases e with
  | audioDelta item delta =>
    exfalso
    cases delta with
    | none => simp [onAiEvent, noopStep] at hm
    | some d =>
      by_cases hd : d = ""
      · simp [onAiEvent, hd, noopStep] at hm
      · rw [onAiEvent_delta s item d hd] at hm
        simp at hm
  | speechStarted => exact handleSpeechStartedEvent_toAi_mem s itemId ci ms hm
  | otherEvent => simp [onAiEvent, noopStep] at hm
  | malformed => simp [onAiEvent, noopStep] at hm

lemma onTelephonyFrame_media_state (aiOpen : Bool) (s : SessionState)
    (ts : Nat) (p : String) :
    (onTelephonyFrame aiOpen s (.media ts p)).state
      = { s with latestMediaTimestamp := ts } := by
  cases aiOpen <;> rfl

lemma onTelephonyFrame_toAi_mem (aiOpen : Bool) (s : SessionState) (f : TwFrame) :
    ∀ itemId ci ms, AiCmd.truncate itemId ci ms ∈ (onTelephonyFrame aiOpen s f).toAi →
    False := by
  intro itemId ci ms hm
  cases f with
  | media ts p => cases aiOpen <;> simp [onTelephonyFrame] at hm
  | start sid => simp [onTelephonyFrame] at hm
  | mark =>
    by_cases hq : 0 < s.markQueue.length <;>
      simp [onTelephonyFrame, hq, noopStep] at hm
  | other ev => simp [onTelephonyFrame] at hm
  | malformed => simp [onTelephonyFrame] at hm

lemma mediaTimestamps_tw_media (ts : Nat) (p : String)
    (rest : List SessionInput) :
    mediaTimestamps (.tw (.media ts p) :: rest) = ts :: mediaTimestamps rest := rfl

lemma mediaTimestamps_ai (e : AiEvent) (rest : List SessionInput) :
    mediaTimestamps (.ai e :: rest) = mediaTimestamps rest := rfl

lemma mediaTimestamps_tw_start (sid : String) (rest : List SessionInput) :
    mediaTimestamps (.tw (.start sid) :: rest) = mediaTimestamps rest := rfl

lemma mediaTimestamps_tw_mark (rest : List SessionInput) :
    mediaTimestamps (.tw .mark :: rest) = mediaTimestamps rest := rfl

lemma mediaTimestamps_tw_other (ev : String) (rest : List SessionInput) :
    mediaTimestamps (.tw (.other ev) :: rest) = mediaTimestamps rest := rfl

lemma mediaTimestamps_tw_malformed (rest : List SessionInput) :
    mediaTimestamps (.tw .malformed :: rest) = mediaTimestamps rest := rfl

/-- Core invariant behind the never-negative-cutoff property: whenever the
remaining inbound media timestamps dominate the current
`latestMediaTimestamp` and any recorded response start is at most the
current `latestMediaTimestamp`, every truncate command emitted during
the rest of the run has a non-negative `audio_end_ms`. -/
lemma truncate_nonneg_aux :
    ∀ (tr : List SessionInput) (aiOpen : Bool) (s : SessionState),
    (∀ r, s.responseStartTimestampTwilio = some r → r ≤ s.latestMediaTimestamp) →
    List.Chain' (· ≤ ·) (s.latestMediaTimestamp :: mediaTimestamps tr) →
    ∀ itemId ci ms, AiCmd.truncate itemId ci ms ∈ (runSession aiOpen s tr).toAi →
    0 ≤ ms := by
  intro tr
  induction tr with
  | nil =>
    intro aiOpen s hB hC itemId ci ms hm
    simp [runSession] at hm
  | cons x rest ih =>
    intro aiOpen s hB hC itemId ci ms hm
    rw [runSession_cons] at hm
    simp only [List.mem_append] at hm
    cases x with
    | ai e =>
      rcases hm with hm | hm
      · obtain ⟨r, hr, hms⟩ := onAiEvent_toAi_mem s e itemId ci ms hm
        have hle := hB r hr
        subst hms
        omega
      · refine ih aiOpen (onAiEvent s e).state ?_ ?_ itemId ci ms hm
        · intro r hr
          rw [onAiEvent_lmt]
          rcases onAiEvent_rst s e with h | h | h
          · rw [h] at hr; cases hr
          · rw [h] at hr; exact hB r hr
          · rw [h] at hr
            cases hr
            exact le_refl _
        · rw [onAiEvent_lmt]
          rw [mediaTimestamps_ai] at hC
          exact hC
    | tw f =>
      cases f with
      | media ts p =>
        rcases hm with hm | hm
        · exact absurd hm
            (by intro h; exact onTelephonyFrame_toAi_mem aiOpen s _ itemId ci ms h)
        · rw [mediaTimestamps_tw_media] at hC
          have hstep : (stepInput aiOpen s (.tw (.media ts p))).state
              = { s with latestMediaTimestamp := ts } :=
            onTelephonyFrame_media_state aiOpen s ts p
          rw [List.chain'_cons] at hC
          refine ih aiOpen _ ?_ ?_ itemId ci ms hm
          · intro r hr
            rw [hstep] at hr ⊢
            simp only at hr ⊢
            exact le_trans (hB r hr) hC.1
          · rw [hstep]
            simp only
            exact hC.2
      | start sid =>
        rcases hm with hm | hm
        · exact absurd hm
            (by intro h; exact onTelephonyFrame_toAi_mem aiOpen s _ itemId ci ms h)
        · rw [mediaTimestamps_tw_start] at hC
          refine ih aiOpen _ ?_ ?_ itemId ci ms hm
          · intro r hr
            simp [stepInput, onTelephonyFrame] at hr
          · simp only [stepInput, onTelephonyFrame]
            refine List.chain'_cons'.mpr ⟨fun y _ => Nat.zero_le y, ?_⟩
            exact hC.tail
      | mark =>
        rcases hm with hm | hm
        · exact absurd hm
            (by intro h; exact onTelephonyFrame_toAi_mem aiOpen s _ itemId ci ms h)
        · rw [mediaTimestamps_tw_mark] at hC
          by_cases hq : 0 < s.markQueue.length <;>
          · refine ih aiOpen _ ?_ ?_ itemId ci ms hm
            · intro r hr
              simp [stepInput, onTelephonyFrame, hq, noopStep] at hr ⊢
              exact hB r hr
            · simp only [stepInput, onTelephonyFrame, hq, if_true, if_false,
                noopStep]
              exact hC
      | other ev =>
        rcases hm with hm | hm
        · exact absurd hm
            (by intro h; exact onTelephonyFrame_toAi_mem aiOpen s _ itemId ci ms h)
        · rw [mediaTimestamps_tw_other] at hC
          exact ih aiOpen _ hB hC itemId ci ms hm
      | malformed =>
        rcases hm with hm | hm
        · exact absurd hm
            (by intro h; exact onTelephonyFrame_toAi_mem aiOpen s _ itemId ci ms h)
        · rw [mediaTimestamps_tw_malformed] at hC
          exact ih aiOpen _ hB hC itemId ci ms hm

lemma handleSpeechStartedEvent_noop (s : SessionState)
    (h : s.markQueue = [] ∨ s.responseStartTimestampTwilio = none) :
    handleSpeechStartedEvent s = noopStep s := by
  rcases h with h | h
  · simp [handleSpeechStartedEvent, h]
  · by_cases hq : 0 < s.markQueue.length
    · simp [handleSpeechStartedEvent, hq, h]
    · simp [handleSpeechStartedEvent, hq]

lemma sendMark_none (s : SessionState) (h : s.streamSid = none) :
    sendMark s = (s, []) := by
  simp [sendMark, h]

lemma sendMark_emptySid (s : SessionState) (h : s.streamSid = some "") :
    sendMark s = (s, []) := by
  simp [sendMark, h]

lemma sendMark_some (s : SessionState) (sid : String)
    (h : s.streamSid = some sid) (hs : sid ≠ "") :
    sendMark s
      = ({ s with markQueue := s.markQueue ++ ["responsePart"] },
         [TwCmd.markOut sid "responsePart"]) := by
  simp [sendMark, h, hs]

lemma onAiEvent_delta_rst_isSome (s : SessionState) (item : Option String)
    (d : String) (hd : d ≠ "") :
    (onAiEvent s (.audioDelta item (some d))).state.responseStartTimestampTwilio.isSome
      = true := by
  rw [onAiEvent_delta s item d hd]
  simp only [sendMark_rst, deltaState_rst]
  by_cases hf : jsFalsyNatOpt s.responseStartTimestampTwilio = true
  · simp [hf]
  · simp only [hf, if_false, Bool.false_eq_true]
    cases h : s.responseStartTimestampTwilio with
    | none => rw [h] at hf; simp [jsFalsyNatOpt] at hf
    | some n => simp

/-- Trace consisting solely of inbound telephony media frames, one per
(timestamp, payload) pair. -/
def mediaTrace : List (Nat × String) → List SessionInput
  | [] => []
  | f :: rest => .tw (.media f.1 f.2) :: mediaTrace rest

lemma runSession_mediaTrace_lmt :
    ∀ (frames : List (Nat × String)) (aiOpen : Bool) (s : SessionState)
      (ts : Nat) (p : String),
    frames.getLast? = some (ts, p) →
    (runSession aiOpen s (mediaTrace frames)).state.latestMediaTimestamp = ts := by
  intro frames
  induction frames with
  | nil => intro aiOpen s ts p h; simp at h
  | cons f rest ih =>
    intro aiOpen s ts p h
    cases rest with
    | nil =>
      simp only [List.getLast?_singleton, Option.some_inj] at h
      subst h
      rw [mediaTrace, mediaTrace, runSession_cons, runSession_nil]
      have hstep : (stepInput aiOpen s (.tw (.media ts p))).state
          = { s with latestMediaTimestamp := ts } :=
        onTelephonyFrame_media_state aiOpen s ts p
      rw [hstep]
    | cons g rest2 =>
      rw [List.getLast?_cons_cons] at h
      rw [mediaTrace, runSession_cons]
      exact ih aiOpen _ ts p h

lemma noStart_run :
    ∀ (tr : List SessionInput) (aiOpen : Bool) (s : SessionState),
    (∀ sid, SessionInput.tw (TwFrame.start sid) ∉ tr) →
    s.streamSid = none → s.markQueue = [] →
    (runSession aiOpen s tr).state.streamSid = none
    ∧ (runSession aiOpen s tr).state.markQueue = []
    ∧ ∀ c ∈ (runSession aiOpen s tr).toTw, c.isMark = false := by
  intro tr
  induction tr with
  | nil =>
    intro aiOpen s hns hsid hmq
    refine ⟨hsid, hmq, fun c hc => absurd hc (List.not_mem_nil c)⟩
  | cons x rest ih =>
    intro aiOpen s hns hsid hmq
    have hns2 : ∀ sid, SessionInput.tw (TwFrame.start sid) ∉ rest :=
      fun sid h => hns sid (List.mem_cons_of_mem _ h)
    rw [runSession_cons]
    cases x with
    | tw f =>
      cases f with
      | media ts p =>
        have hstep : (stepInput aiOpen s (.tw (.media ts p))).state
            = { s with latestMediaTimestamp := ts } :=
          onTelephonyFrame_media_state aiOpen s ts p
        have hrec := ih aiOpen (stepInput aiOpen s (.tw (.media ts p))).state
          hns2 (by rw [hstep]; exact hsid) (by rw [hstep]; exact hmq)
        refine ⟨hrec.1, hrec.2.1, ?_⟩
        intro c hc
        simp only [List.mem_append] at hc
        rcases hc with hc | hc
        · exfalso
          cases aiOpen <;> simp [stepInput, onTelephonyFrame] at hc
        · exact hrec.2.2 c hc
      | start sid => exact absurd (List.mem_cons_self _ _) (hns sid)
      | mark =>
        have hstep : stepInput aiOpen s (.tw .mark) = noopStep s := by
          simp [stepInput, onTelephonyFrame, hmq]
        rw [hstep]
        have hrec := ih aiOpen s hns2 hsid hmq
        refine ⟨hrec.1, hrec.2.1, ?_⟩
        intro c hc
        simp only [noopStep, List.nil_append] at hc
        exact hrec.2.2 c hc
      | other ev =>
        have hrec := ih aiOpen s hns2 hsid hmq
        refine ⟨hrec.1, hrec.2.1, ?_⟩
        intro c hc
        simp only [stepInput, onTelephonyFrame, List.nil_append] at hc
        exact hrec.2.2 c hc
      | malformed =>
        have hrec := ih aiOpen s hns2 hsid hmq
        refine ⟨hrec.1, hrec.2.1, ?_⟩
        intro c hc
        simp only [stepInput, onTelephonyFrame, List.nil_append] at hc
        exact hrec.2.2 c hc
    | ai e =>
      cases e with
      | audioDelta item delta =>
        cases delta with
        | none =>
          have hrec := ih aiOpen s hns2 hsid hmq
          refine ⟨hrec.1, hrec.2.1, ?_⟩
          intro c hc
          simp only [stepInput, onAiEvent, noopStep, List.nil_append] at hc
          exact hrec.2.2 c hc
        | some d =>
          by_cases hd : d = ""
          · subst hd
            have hrec := ih aiOpen s hns2 hsid hmq
            refine ⟨hrec.1, hrec.2.1, ?_⟩
            intro c hc
            simp only [stepInput, onAiEvent, noopStep, List.nil_append] at hc
            exact hrec.2.2 c hc
          · have hds : (deltaState s item).streamSid = none := by
              rw [deltaState_sid]; exact hsid
            have hsm : sendMark (deltaState s item) = (deltaState s item, []) :=
              sendMark_none _ hds
            have hstep : stepInput aiOpen s (.ai (.audioDelta item (some d)))
                = ⟨deltaState s item, [],
                   [TwCmd.mediaOut s.streamSid (b64Reencode d)], []⟩ := by
              have h1 : stepInput aiOpen s (.ai (.audioDelta item (some d)))
                  = onAiEvent s (.audioDelta item (some d)) := rfl
              rw [h1, onAiEvent_delta s item d hd, hsm]
            rw [hstep]
            have hrec := ih aiOpen (deltaState s item) hns2 hds
              (by rw [deltaState_mq]; exact hmq)
            refine ⟨hrec.1, hrec.2.1, ?_⟩
            intro c hc
            simp only [List.mem_append, List.mem_singleton] at hc
            rcases hc with hc | hc
            · subst hc; rfl
            · exact hrec.2.2 c hc
      | speechStarted =>
        have hstep : stepInput aiOpen s (.ai .speechStarted) = noopStep s :=
          handleSpeechStartedEvent_noop s (Or.inl hmq)
        rw [hstep]
        have hrec := ih aiOpen s hns2 hsid hmq
        refine ⟨hrec.1, hrec.2.1, ?_⟩
        intro c hc
        simp only [noopStep, List.nil_append] at hc
        exact hrec.2.2 c hc
      | otherEvent =>
        have hrec := ih aiOpen s hns2 hsid hmq
        refine ⟨hrec.1, hrec.2.1, ?_⟩
        intro c hc
        simp only [stepInput, onAiEvent, noopStep, List.nil_append] at hc
        exact hrec.2.2 c hc
      | malformed =>
        have hrec := ih aiOpen s hns2 hsid hmq
        refine ⟨hrec.1, hrec.2.1, ?_⟩
        intro c hc
        simp only [stepInput, onAiEvent, noopStep, List.nil_append] at hc
        exact hrec.2.2 c hc

/-! Claim theorems. -/

/-- C1: when an interruption fires while `markQueue` is non-empty and
`responseStartTimestampTwilio` is non-null, the truncate command sent to
the AI link names `lastAssistantItem` with audio cutoff
`latestMediaTimestamp - responseStartTimestampTwilio` at that instant;
for every inbound trace whose media timestamps are monotonically
non-decreasing the cutoff is never negative; and on the scenario trace
(audio-delta for "I1" at `latestMediaTimestamp` 1000, media frame with
timestamp 1800, speech-started) the emitted truncate references "I1"
with cutoff 800. -/
theorem c1_truncation_cutoff :
    (∀ (s : SessionState) (r : Nat) (itemId : String),
      0 < s.markQueue.length →
      s.responseStartTimestampTwilio = some r →
      s.lastAssistantItem = some itemId →
      itemId ≠ "" →
      (handleSpeechStartedEvent s).toAi
        = [AiCmd.truncate itemId 0
            ((s.latestMediaTimestamp : Int) - (r : Int))])
    ∧ (∀ (tr : List SessionInput) (aiOpen : Bool),
      List.Chain' (· ≤ ·) (mediaTimestamps tr) →
      ∀ itemId ci ms,
        AiCmd.truncate itemId ci ms ∈ (runSession aiOpen initState tr).toAi →
        0 ≤ ms)
    ∧ AiCmd.truncate "I1" 0 800 ∈ (runSession true initState c1Trace).toAi := by
  refine ⟨?_, ?_, ?_⟩
  · intro s r itemId hq hr hl hne
    simp [handleSpeechStartedEvent, hq, hr, hl, hne]
  · intro tr aiOpen hC itemId ci ms hm
    refine truncate_nonneg_aux tr aiOpen initState ?_ ?_ itemId ci ms hm
    · intro r hr
      simp [initState] at hr
    · exact List.chain'_cons'.mpr ⟨fun y _ => Nat.zero_le y, hC⟩
  · decide

/-- Witness for C1 at concrete inputs: a state with `markQueue` non-empty,
response start 1000, `latestMediaTimestamp` 1800 and assistant item "I1"
yields exactly the truncate with cutoff 800, which is non-negative. -/
def c1State : SessionState :=
  ⟨some "CA1", 1800, some "I1", ["responsePart"], some 1000⟩

theorem c1_truncation_cutoff_witness :
    (handleSpeechStartedEvent c1State).toAi = [AiCmd.truncate "I1" 0 800]
    ∧ (0 : Int) ≤ 800 := by
  constructor
  · exact c1_truncation_cutoff.1 c1State 1000 "I1" (by decide) rfl rfl (by decide)
  · exact c1_truncation_cutoff.2.1 c1Trace true
      (by show List.Chain' (· ≤ ·) [1000, 1800]; simp) "I1" 0 800
      c1_truncation_cutoff.2.2

/-- C2: after an interruption that fires (markQueue non-empty and
response start non-null), `markQueue` is empty, `lastAssistantItem` is
null, `responseStartTimestampTwilio` is null, and a clear frame tagged
with the session's `streamSid` is sent to the telephony link regardless
of whether `lastAssistantItem` was set. -/
theorem c2_interruption_resets :
    ∀ (s : SessionState) (r : Nat),
    0 < s.markQueue.length →
    s.responseStartTimestampTwilio = some r →
    (handleSpeechStartedEvent s).state.markQueue = []
    ∧ (handleSpeechStartedEvent s).state.lastAssistantItem = none
    ∧ (handleSpeechStartedEvent s).state.responseStartTimestampTwilio = none
    ∧ (handleSpeechStartedEvent s).toTw = [TwCmd.clearOut s.streamSid] := by
  intro s r hq hr
  refine ⟨?_, ?_, ?_, ?_⟩ <;> simp [handleSpeechStartedEvent, hq, hr]

/-- Witness for C2 at a concrete state with `lastAssistantItem` unset,
showing the clear frame is sent regardless. -/
def c2State : SessionState := ⟨none, 700, none, ["responsePart"], some 200⟩

theorem c2_interruption_resets_witness :
    (handleSpeechStartedEvent c2State).state.markQueue = []
    ∧ (handleSpeechStartedEvent c2State).state.lastAssistantItem = none
    ∧ (handleSpeechStartedEvent c2State).state.responseStartTimestampTwilio = none
    ∧ (handleSpeechStartedEvent c2State).toTw = [TwCmd.clearOut none] :=
  c2_interruption_resets c2State 200 (by decide) rfl

/-- C3: when `markQueue` is empty or `responseStartTimestampTwilio` is
null, handling a speech-started event is a no-op: no truncate and no
clear are emitted, nothing is logged, and the entire session state
(including `markQueue`, `lastAssistantItem`,
`responseStartTimestampTwilio` and `latestMediaTimestamp`) is
unchanged. -/
theorem c3_speech_started_noop :
    ∀ s : SessionState,
    s.markQueue = [] ∨ s.responseStartTimestampTwilio = none →
    (handleSpeechStartedEvent s).state = s
    ∧ (handleSpeechStartedEvent s).toAi = []
    ∧ (handleSpeechStartedEvent s).toTw = []
    ∧ (handleSpeechStartedEvent s).logs = [] := by
  intro s h
  rw [handleSpeechStartedEvent_noop s h]
  exact ⟨rfl, rfl, rfl, rfl⟩

theorem c3_speech_started_noop_witness :
    (handleSpeechStartedEvent initState).state = initState
    ∧ (handleSpeechStartedEvent initState).toAi = []
    ∧ (handleSpeechStartedEvent initState).toTw = []
    ∧ (handleSpeechStartedEvent initState).logs = [] :=
  c3_speech_started_noop initState (Or.inl rfl)

/-- C4 counterexample: the first audio-delta of a response arriving at
`latestMediaTimestamp` 0 records a response start of 0, and a subsequent
audio-delta of the same response (no interruption and no stream restart
in between) modifies it — line 298 tests JS falsiness
(`!responseStartTimestampTwilio`), so the recorded 0 is treated as
unset and re-sampled to 500. -/
theorem c4_counterexample :
    (runSession true initState c4TraceA).state.responseStartTimestampTwilio
      = some 0
    ∧ (runSession true initState c4TraceB).state.responseStartTimestampTwilio
      ≠ some 0 := by
  constructor
  · decide
  · decide

/-- C4 amended: `responseStartTimestampTwilio` is set to the current
`latestMediaTimestamp` when it is null (for every value of
`latestMediaTimestamp`, including 0) and is not modified by subsequent
audio-delta chunks provided the recorded value is nonzero; a recorded
value of 0 is JS-falsy and is re-sampled by the next chunk; it is
cleared by a stream restart and by an interruption that fires. -/
theorem c4_response_start_amended :
    (∀ (s : SessionState) (item : Option String) (d : String),
      d ≠ "" → s.responseStartTimestampTwilio = none →
      (onAiEvent s (.audioDelta item (some d))).state.responseStartTimestampTwilio
        = some s.latestMediaTimestamp)
    ∧ (∀ (s : SessionState) (item : Option String) (d : String) (r : Nat),
      d ≠ "" → s.responseStartTimestampTwilio = some r → r ≠ 0 →
      (onAiEvent s (.audioDelta item (some d))).state.responseStartTimestampTwilio
        = some r)
    ∧ (∀ (s : SessionState) (item : Option String) (d : String),
      d ≠ "" → s.responseStartTimestampTwilio = some 0 →
      (onAiEvent s (.audioDelta item (some d))).state.responseStartTimestampTwilio
        = some s.latestMediaTimestamp)
    ∧ (∀ (aiOpen : Bool) (s : SessionState) (sid : String),
      (onTelephonyFrame aiOpen s (.start sid)).state.responseStartTimestampTwilio
        = none)
    ∧ (∀ (s : SessionState) (r : Nat),
      0 < s.markQueue.length → s.responseStartTimestampTwilio = some r →
      (handleSpeechStartedEvent s).state.responseStartTimestampTwilio = none) := by
  refine ⟨?_, ?_, ?_, ?_, ?_⟩
  · intro s item d hd hr
    rw [onAiEvent_delta s item d hd]
    simp [sendMark_rst, deltaState_rst, jsFalsyNatOpt, hr]
  · intro s item d r hd hr hr0
    rw [onAiEvent_delta s item d hd]
    simp [sendMark_rst, deltaState_rst, jsFalsyNatOpt, hr, hr0]
  · intro s item d hd hr
    rw [onAiEvent_delta s item d hd]
    simp [sendMark_rst, deltaState_rst, jsFalsyNatOpt, hr]
  · intro aiOpen s sid
    rfl
  · intro s r hq hr
    simp [handleSpeechStartedEvent, hq, hr]

/-- Witness state for C4 with a nonzero recorded response start. -/
def c4State : SessionState := ⟨some "CA1", 250, none, [], some 100⟩

theorem c4_response_start_amended_witness :
    (onAiEvent initState
        (.audioDelta (some "I1") (some "d"))).state.responseStartTimestampTwilio
      = some 0
    ∧ (onAiEvent c4State
        (.audioDelta (some "I1") (some "d"))).state.responseStartTimestampTwilio
      = some 100 :=
  ⟨c4_response_start_amended.1 initState (some "I1") "d" (by decide) rfl,
   c4_response_start_amended.2.1 c4State (some "I1") "d" 100 (by decide) rfl
     (by decide)⟩

/-- C5: after processing a sequence of inbound media frames with
monotonically non-decreasing timestamps, `latestMediaTimestamp` equals
the last frame's timestamp; and a single media frame's payload is
forwarded unmodified to the AI link as an `input_audio_buffer.append`
exactly when the AI socket is open, while the timestamp is recorded
either way. -/
theorem c5_media_frames :
    (∀ (frames : List (Nat × String)) (aiOpen : Bool) (s : SessionState)
       (ts : Nat) (p : String),
      List.Chain' (· ≤ ·) (frames.map Prod.fst) →
      frames.getLast? = some (ts, p) →
      (runSession aiOpen s (mediaTrace frames)).state.latestMediaTimestamp = ts)
    ∧ (∀ (aiOpen : Bool) (s : SessionState) (ts : Nat) (p : String),
      (onTelephonyFrame aiOpen s (.media ts p)).state.latestMediaTimestamp = ts
      ∧ ((onTelephonyFrame aiOpen s (.media ts p)).toAi = [AiCmd.audioAppend p]
          ↔ aiOpen = true)) := by
  constructor
  · intro frames aiOpen s ts p _ h
    exact runSession_mediaTrace_lmt frames aiOpen s ts p h
  · intro aiOpen s ts p
    constructor
    · rw [onTelephonyFrame_media_state]
    · cases aiOpen <;> simp [onTelephonyFrame]

theorem c5_media_frames_witness :
    (runSession true initState
        (mediaTrace [(5, "x"), (7, "y")])).state.latestMediaTimestamp = 7
    ∧ (onTelephonyFrame true initState (.media 7 "y")).state.latestMediaTimestamp
      = 7 :=
  ⟨c5_media_frames.1 [(5, "x"), (7, "y")] true initState 7 "y"
      (by show List.Chain' (· ≤ ·) [5, 7]; simp) rfl,
   (c5_media_frames.2 true initState 7 "y").1⟩

/-- C6 counterexample: on the frame sequence `start{"CA1"}`,
`media{timestamp:0}`, AI audio-delta for item "I1", AI speech-started, a
truncate command IS emitted to the AI link (the claim says none is),
because the delta set `responseStartTimestampTwilio` to 0, which passes
the `!= null` guard of `handleSpeechStartedEvent`. -/
theorem c6_counterexample :
    AiCmd.truncate "I1" 0 0 ∈ (runSession true initState c6Trace).toAi := by
  decide

/-- C6 amended: for the frame sequence `start{streamSid:"CA1"}`,
`media{timestamp:0,payload:"a"}`, AI audio-delta for item "I1", then AI
speech-started with no prior response in flight, a truncate command
referencing "I1" with cutoff 0 is emitted to the AI link (the delta
marked the response as started at `latestMediaTimestamp` 0, which is
non-null), and a clear frame is also emitted to the telephony link. -/
theorem c6_amended :
    (runSession true initState c6Trace).toAi
      = [AiCmd.audioAppend "a", AiCmd.truncate "I1" 0 0]
    ∧ (runSession true initState c6Trace).toTw
      = [TwCmd.mediaOut (some "CA1") "a",
         TwCmd.markOut "CA1" "responsePart",
         TwCmd.clearOut (some "CA1")] := by
  constructor
  · decide
  · decide

/-- C7 counterexample: when the AI link closes while the telephony link
is still open, no close of the telephony link is performed — the
`openAiWs` close handler only logs. -/
theorem c7_counterexample :
    CloseAction.closeTelephonyLink ∉ (onAiClose true).1 := by
  decide

/-- C7 amended: closing the telephony link closes the AI link
best-effort (exactly when it is still open); closing the AI link closes
nothing — the symmetric direction claimed by the spec is absent from the
code. -/
theorem c7_amended :
    (∀ b : Bool,
      (onTelephonyClose b).1 = if b then [CloseAction.closeAiLink] else [])
    ∧ ∀ b : Bool, (onAiClose b).1 = [] := by
  exact ⟨fun b => rfl, fun b => rfl⟩

/-- C8 counterexample: a session registered under the empty callId
(`streamSid = ""`) is never evicted — the eviction callback's
`if (streamSid)` guard is falsy — so a lookup strictly after the grace
period still succeeds, contradicting the claim's universal removal. -/
theorem c8_counterexample :
    lookupAt (evictionDelayMs + 1) (regOnClose 0 (regOnStart "" regInit))
      = true := by
  decide

/-- C8 amended: the eviction delay is the fixed 5 minutes (300000 ms),
and for every session registered under a truthy (non-empty) callId the
entry remains retrievable at every instant before `close + 300000` ms
and is removed at and after that instant, so later lookups fail; a
session registered under the empty callId is never evicted. -/
theorem c8_eviction_amended :
    evictionDelayMs = 5 * 60 * 1000
    ∧ ∀ (sid : String) (tc t : Nat), sid ≠ "" →
      (t < tc + evictionDelayMs →
        lookupAt t (regOnClose tc (regOnStart sid regInit)) = true)
      ∧ (tc + evictionDelayMs ≤ t →
        lookupAt t (regOnClose tc (regOnStart sid regInit)) = false) := by
  refine ⟨rfl, ?_⟩
  intro sid tc t hsid
  have he : regOnClose tc (regOnStart sid regInit)
      = ⟨true, some sid, some (tc + evictionDelayMs)⟩ := rfl
  constructor
  · intro ht
    rw [he]
    simp only [lookupAt, regAtTime]
    have hno : ¬(tc + evictionDelayMs ≤ t ∧ jsTruthyStrOpt (some sid) = true) := by
      intro hc
      exact absurd hc.1 (by omega)
    rw [if_neg hno]
  · intro ht
    rw [he]
    simp only [lookupAt, regAtTime]
    rw [if_pos ⟨ht, by simp [jsTruthyStrOpt, hsid]⟩]

theorem c8_eviction_amended_witness :
    lookupAt 299999 (regOnClose 0 (regOnStart "CA1" regInit)) = true
    ∧ lookupAt 300000 (regOnClose 0 (regOnStart "CA1" regInit)) = false :=
  ⟨(c8_eviction_amended.2 "CA1" 0 299999 (by decide)).1 (by decide),
   (c8_eviction_amended.2 "CA1" 0 300000 (by decide)).2 (by decide)⟩

/-- C9: a malformed telephony message is dropped with the error reported
to the logging collaborator and leaves the session state unchanged; a
malformed AI event is dropped silently; and in both cases the session
processes the rest of the trace exactly as if the malformed message had
never arrived. -/
theorem c9_malformed_handling :
    (∀ (aiOpen : Bool) (s : SessionState),
      onTelephonyFrame aiOpen s .malformed
        = ⟨s, [], [], ["Error parsing message"]⟩)
    ∧ (∀ s : SessionState, onAiEvent s .malformed = ⟨s, [], [], []⟩)
    ∧ (∀ (aiOpen : Bool) (s : SessionState) (rest : List SessionInput),
      runSession aiOpen s (.tw .malformed :: rest) = runSession aiOpen s rest)
    ∧ (∀ (aiOpen : Bool) (s : SessionState) (rest : List SessionInput),
      runSession aiOpen s (.ai .malformed :: rest) = runSession aiOpen s rest) := by
  exact ⟨fun aiOpen s => rfl, fun s => rfl,
    fun aiOpen s rest => rfl, fun aiOpen s rest => rfl⟩

/-- C10: on an audio-delta, a marker token is appended to `markQueue`
exactly when a mark frame is sent on the telephony link, and both happen
exactly when `streamSid` is truthy; `streamSid` is only set by a start
frame, so for every trace without a start frame `markQueue` stays empty
and no mark frame is ever sent, while an audio-delta processed in such a
state still forwards the media frame with a null `streamSid` and still
records `responseStartTimestampTwilio`. -/
theorem c10_mark_bookkeeping :
    (∀ (s : SessionState) (item : Option String) (d : String) (sid : String),
      d ≠ "" → s.streamSid = some sid → sid ≠ "" →
      (onAiEvent s (.audioDelta item (some d))).state.markQueue
          = s.markQueue ++ ["responsePart"]
      ∧ TwCmd.markOut sid "responsePart"
          ∈ (onAiEvent s (.audioDelta item (some d))).toTw)
    ∧ (∀ (s : SessionState) (item : Option String) (d : String),
      d ≠ "" → jsTruthyStrOpt s.streamSid = false →
      (onAiEvent s (.audioDelta item (some d))).state.markQueue = s.markQueue
      ∧ ∀ c ∈ (onAiEvent s (.audioDelta item (some d))).toTw,
          c.isMark = false)
    ∧ (∀ (tr : List SessionInput) (aiOpen : Bool),
      (∀ sid, SessionInput.tw (TwFrame.start sid) ∉ tr) →
      (runSession aiOpen initState tr).state.streamSid = none
      ∧ (runSession aiOpen initState tr).state.markQueue = []
      ∧ ∀ c ∈ (runSession aiOpen initState tr).toTw, c.isMark = false)
    ∧ (∀ (tr : List SessionInput) (item : Option String) (d : String),
      (∀ sid, SessionInput.tw (TwFrame.start sid) ∉ tr) → d ≠ "" →
      TwCmd.mediaOut none (b64Reencode d)
        ∈ (onAiEvent (runSession true initState tr).state
            (.audioDelta item (some d))).toTw
      ∧ (onAiEvent (runSession true initState tr).state
          (.audioDelta item (some d))).state.responseStartTimestampTwilio.isSome
        = true
      ∧ (onAiEvent (runSession true initState tr).state
          (.audioDelta item (some d))).state.markQueue = []) := by
  refine ⟨?_, ?_, ?_, ?_⟩
  · intro s item d sid hd hsid hne
    rw [onAiEvent_delta s item d hd]
    have hds : (deltaState s item).streamSid = some sid := by
      rw [deltaState_sid]; exact hsid
    rw [sendMark_some _ sid hds hne]
    constructor
    · simp [deltaState_mq]
    · simp
  · intro s item d hd hfalse
    rw [onAiEvent_delta s item d hd]
    cases hsid : s.streamSid with
    | none =>
      have hds : (deltaState s item).streamSid = none := by
        rw [deltaState_sid]; exact hsid
      rw [sendMark_none _ hds]
      refine ⟨deltaState_mq s item, ?_⟩
      intro c hc
      simp only [List.mem_singleton] at hc
      subst hc
      rfl
    | some sid =>
      have hempty : sid = "" := by
        rw [hsid] at hfalse
        simpa [jsTruthyStrOpt] using hfalse
      subst hempty
      have hds : (deltaState s item).streamSid = some "" := by
        rw [deltaState_sid]; exact hsid
      rw [sendMark_emptySid _ hds]
      refine ⟨deltaState_mq s item, ?_⟩
      intro c hc
      simp only [List.mem_singleton] at hc
      subst hc
      rfl
  · intro tr aiOpen hns
    exact noStart_run tr aiOpen initState hns rfl rfl
  · intro tr item d hns hd
    have h3 := noStart_run tr true initState hns rfl rfl
    have hds : (deltaState (runSession true initState tr).state item).streamSid
        = none := by
      rw [deltaState_sid]; exact h3.1
    refine ⟨?_, onAiEvent_delta_rst_isSome _ item d hd, ?_⟩
    · rw [onAiEvent_delta _ item d hd, sendMark_none _ hds, h3.1]
      simp
    · rw [onAiEvent_delta _ item d hd, sendMark_none _ hds]
      simp only [deltaState_mq]
      exact h3.2.1

/-- Witness state for C10 with a truthy `streamSid` and empty
`markQueue`. -/
def c10State : SessionState := ⟨some "CA1", 10, none, [], none⟩

theorem c10_mark_bookkeeping_witness :
    (onAiEvent c10State (.audioDelta (some "I1") (some "d"))).state.markQueue
      = ["responsePart"]
    ∧ (runSession true initState [.tw (.media 3 "x")]).state.markQueue = []
    ∧ TwCmd.mediaOut none (b64Reencode "d")
        ∈ (onAiEvent (runSession true initState [.tw (.media 3 "x")]).state
            (.audioDelta (some "I1") (some "d"))).toTw := by
  refine ⟨?_, ?_, ?_⟩
  · exact (c10_mark_bookkeeping.1 c10State (some "I1") "d" "CA1" (by decide)
      rfl (by decide)).1
  · exact (c10_mark_bookkeeping.2.2.1 [.tw (.media 3 "x")] true
      (by intro sid hm; simp at hm)).2.1
  · exact (c10_mark_bookkeeping.2.2.2 [.tw (.media 3 "x")] (some "I1") "d"
      (by intro sid hm; simp at hm) (by decide)).1

end Bridge
